import Mathlib

/-!
Shallow embedding of the Hummingbot IndependentReserve connector
(`hummingbot/connector/exchange/independentreserve/`): the authentication
module (`independentreserve_auth.py`), the order-book message normalizer
(`independentreserve_order_book.py`) and the API order-book data source
(`independentreserve_api_order_book_data_source.py`).

Machine words are represented as `Nat` reduced modulo `2 ^ 32` (or `2 ^ 8`
for bytes).  Byte strings are `List Nat`.  Fallible Python code (uncaught
exceptions such as `KeyError`, `IndexError`, `UnboundLocalError`,
`ValueError`, `NameError`, `TypeError`) is embedded with `Option` or
`Except`.  Python `dict` / `OrderedDict` values are association lists that
keep insertion order, mirroring CPython semantics.
-/

/-! ## Bytes, 32-bit words, SHA-256 and HMAC

`independentreserve_auth.py` signs requests with
`hmac.new(secret, msg, hashlib.sha256).hexdigest().upper()`.  The hash
itself lives in CPython's `hashlib`; it is embedded here as the standard
FIPS 180-4 SHA-256 over byte lists so that the produced signature is a
fully executable function of the secret and the message. -/

def M32 : Nat := 4294967296

def M8 : Nat := 256

/-- Right rotation of a 32-bit word (input assumed `< 2 ^ 32`). -/
def rotr32 (x n : Nat) : Nat := ((x >>> n) ||| (x <<< (32 - n))) % M32

/-- Bitwise complement of a 32-bit word. -/
def not32 (x : Nat) : Nat := x ^^^ (M32 - 1)

def shaCh (x y z : Nat) : Nat := (x &&& y) ^^^ (not32 x &&& z)

def shaMaj (x y z : Nat) : Nat := (x &&& y) ^^^ (x &&& z) ^^^ (y &&& z)

def bsig0 (x : Nat) : Nat := rotr32 x 2 ^^^ rotr32 x 13 ^^^ rotr32 x 22

def bsig1 (x : Nat) : Nat := rotr32 x 6 ^^^ rotr32 x 11 ^^^ rotr32 x 25

def ssig0 (x : Nat) : Nat := rotr32 x 7 ^^^ rotr32 x 18 ^^^ (x >>> 3)

def ssig1 (x : Nat) : Nat := rotr32 x 17 ^^^ rotr32 x 19 ^^^ (x >>> 10)

/-- The eight SHA-256 initial hash values (FIPS 180-4, 5.3.3), in decimal. -/
def shaIV : List Nat :=
  [1779033703, 3144134277, 1013904242, 2773480762,
   1359893119, 2600822924, 528734635, 1541459225]

/-- The 64 SHA-256 round constants (FIPS 180-4, 4.2.2), in decimal. -/
def shaK : List Nat :=
  [1116352408, 1899447441, 3049323471, 3921009573, 961987163, 1508970993,
   2453635748, 2870763221, 3624381080, 310598401, 607225278, 1426881987,
   1925078388, 2162078206, 2614888103, 3248222580, 3835390401, 4022224774,
   264347078, 604807628, 770255983, 1249150122, 1555081692, 1996064986,
   2554220882, 2821834349, 2952996808, 3210313671, 3336571891, 3584528711,
   113926993, 338241895, 666307205, 773529912, 1294757372, 1396182291,
   1695183700, 1986661051, 2177026350, 2456956037, 2730485921, 2820302411,
   3259730800, 3345764771, 3516065817, 3600352804, 4094571909, 275423344,
   430227734, 506948616, 659060556, 883997877, 958139571, 1322822218,
   1537002063, 1747873779, 1955562222, 2024104815, 2227730452, 2361852424,
   2428436474, 2756734187, 3204031479, 3329325298]

/-- Big-endian 8-byte serialization of a 64-bit length field. -/
def u64be (x : Nat) : List Nat :=
  [(x >>> 56) % M8, (x >>> 48) % M8, (x >>> 40) % M8, (x >>> 32) % M8,
   (x >>> 24) % M8, (x >>> 16) % M8, (x >>> 8) % M8, x % M8]

/-- SHA-256 padding (FIPS 180-4, 5.1.1): append `0x80`, zero bytes up to 56 mod
64, then the 64-bit big-endian bit length. -/
def shaPad (msg : List Nat) : List Nat :=
  let len := msg.length
  let zeros := (56 + 64 - (len + 1) % 64) % 64
  msg ++ [0x80] ++ List.replicate zeros 0 ++ u64be ((len * 8) % (M32 * M32))

/-- Split a byte list into chunks of `n` (fuelled structural recursion). -/
def chunksAux (n : Nat) : Nat → List Nat → List (List Nat)
  | 0, _ => []
  | _ + 1, [] => []
  | fuel + 1, l => l.take n :: chunksAux n fuel (l.drop n)

def chunks (n : Nat) (l : List Nat) : List (List Nat) := chunksAux n l.length l

/-- Interpret 4 consecutive bytes as a big-endian 32-bit word. -/
def word32OfBytes (l : List Nat) : Nat :=
  (l.getD 0 0) <<< 24 ||| (l.getD 1 0) <<< 16 ||| (l.getD 2 0) <<< 8 ||| l.getD 3 0

/-- Extend the 16-word block to the 64-word message schedule. -/
def shaExtend : Nat → List Nat → List Nat
  | 0, w => w
  | fuel + 1, w =>
      let n := w.length
      shaExtend fuel (w ++ [(ssig1 (w.getD (n - 2) 0) + w.getD (n - 7) 0 +
        ssig0 (w.getD (n - 15) 0) + w.getD (n - 16) 0) % M32])

/-- One SHA-256 round: state is the list `[a, b, c, d, e, f, g, h]`. -/
def shaRound (st : List Nat) (kw : Nat × Nat) : List Nat :=
  let a := st.getD 0 0
  let b := st.getD 1 0
  let c := st.getD 2 0
  let d := st.getD 3 0
  let e := st.getD 4 0
  let f := st.getD 5 0
  let g := st.getD 6 0
  let h := st.getD 7 0
  let t1 := (h + bsig1 e + shaCh e f g + kw.1 + kw.2) % M32
  let t2 := (bsig0 a + shaMaj a b c) % M32
  [(t1 + t2) % M32, a, b, c, (d + t1) % M32, e, f, g]

/-- Compress one 64-byte block into the running 8-word state. -/
def shaCompress (st : List Nat) (block : List Nat) : List Nat :=
  let w := shaExtend 48 ((chunks 4 block).map word32OfBytes)
  let out := (shaK.zip w).foldl shaRound st
  (st.zip out).map (fun p => (p.1 + p.2) % M32)

/-- SHA-256 digest (32 bytes) of a byte list. -/
def sha256 (msg : List Nat) : List Nat :=
  let st := ((chunks 64 (shaPad msg)).foldl shaCompress shaIV)
  st.foldr (fun wd acc =>
    (wd >>> 24) % M8 :: (wd >>> 16) % M8 :: (wd >>> 8) % M8 :: wd % M8 :: acc) []

/-- Zero-pad (or hash, then zero-pad) an HMAC key to the 64-byte block size. -/
def hmacKeyBlock (key : List Nat) : List Nat :=
  let k := if 64 < key.length then sha256 key else key
  k ++ List.replicate (64 - k.length) 0

/-- HMAC-SHA256 (FIPS 198-1) of `msg` under `key`, as computed by CPython's
`hmac.new(key, msg, hashlib.sha256).digest()`. -/
def hmacSha256 (key msg : List Nat) : List Nat :=
  let k0 := hmacKeyBlock key
  sha256 ((k0.map (fun b => b ^^^ 0x5c)) ++ sha256 ((k0.map (fun b => b ^^^ 0x36)) ++ msg))

/-- Lowercase hex digit for a value below 16. -/
def hexDigit (n : Nat) : Char := if n < 10 then Char.ofNat (48 + n) else Char.ofNat (87 + n)

/-- Lowercase hex string of a byte list: CPython's `.hexdigest()`. -/
def hexdigest (bytes : List Nat) : String :=
  String.mk (bytes.foldr (fun b acc => hexDigit (b / 16 % 16) :: hexDigit (b % 16) :: acc) [])

/-- UTF-8 bytes of a string: CPython's `str.encode("utf8")`. -/
def strBytes (s : String) : List Nat := s.toUTF8.toList.map UInt8.toNat

/-! ## `independentreserve_auth.py` (`IndependentreserveAuth`)

`add_auth_to_data` builds the signature message, signs it and returns
`json.dumps` of an `OrderedDict`.  Request parameter maps are embedded as
association lists in insertion order (CPython `dict` iteration order); the
parameter values are taken to be strings, which is how every value the
connector passes is serialized. -/

/-- 4-digit lowercase hex, as in CPython's `json` `\uXXXX` escapes. -/
def hex4 (n : Nat) : String :=
  String.mk [hexDigit (n / 4096 % 16), hexDigit (n / 256 % 16), hexDigit (n / 16 % 16), hexDigit (n % 16)]

/-- Escape of one character in a CPython `json.dumps` string (default
`ensure_ascii=True`): named escapes for `"`, `\`, and the usual control
characters, `\uXXXX` (with surrogate pairs above the BMP) for every other
character outside the printable ASCII range `0x20`-`0x7e`. -/
def jsonEscapeChar (c : Char) : String :=
  if c = Char.ofNat 34 then "\\\""
  else if c = Char.ofNat 92 then "\\\\"
  else if c = Char.ofNat 10 then "\\n"
  else if c = Char.ofNat 13 then "\\r"
  else if c = Char.ofNat 9 then "\\t"
  else if c = Char.ofNat 8 then "\\b"
  else if c = Char.ofNat 12 then "\\f"
  else if c.toNat < 32 || 126 < c.toNat then
    if c.toNat < 65536 then "\\u" ++ hex4 c.toNat
    else
      let v := c.toNat - 65536
      "\\u" ++ hex4 (55296 + v / 1024) ++ "\\u" ++ hex4 (56320 + v % 1024)
  else String.singleton c

/-- CPython `json.dumps` of a string value. -/
def jsonString (s : String) : String :=
  "\"" ++ String.join (s.toList.map jsonEscapeChar) ++ "\""

/-- CPython `json.dumps` of a string-valued dict, keys kept in order
(`sort_keys=False`), default separators. -/
def jsonDumps (pairs : List (String × String)) : String :=
  "\x7b" ++ String.intercalate ", "
    (pairs.map (fun p => jsonString p.1 ++ ": " ++ jsonString p.2)) ++ "\x7d"

/-- `d[k] = v` on a CPython `dict` / `OrderedDict`: an existing key keeps its
position and gets the new value, a new key is appended. -/
def odSet {β : Type} (d : List (String × β)) (k : String) (v : β) : List (String × β) :=
  if d.any (fun e => e.1 == k) then d.map (fun e => if e.1 == k then (k, v) else e)
  else d ++ [(k, v)]

/-- The signature message of `add_auth_to_data`: start from
`[url, "apiKey=" + api_key, "nonce=" + str(timestamp)]`, append `"k=v"` for
each request parameter in map order, and comma-join. -/
def auth_message (url apiKey nonce : String) (params : List (String × String)) : String :=
  let request_params :=
    params.foldl (fun acc p => acc ++ [p.1 ++ "=" ++ p.2])
      [url, "apiKey=" ++ apiKey, "nonce=" ++ nonce]
  String.intercalate "," request_params

/-- `IndependentreserveAuth._generate_signature`: uppercase hex HMAC-SHA256
of the message keyed by the secret (both UTF-8 encoded). -/
def generate_signature (secret message : String) : String :=
  (hexdigest (hmacSha256 (strBytes secret) (strBytes message))).toUpper

/-- The `OrderedDict` built by `add_auth_to_data`: `apiKey`, `nonce`,
`signature`, then each request parameter assigned in map order (an assignment
to an existing key overwrites in place). -/
def auth_body_pairs (apiKey nonce signature : String) (params : List (String × String)) :
    List (String × String) :=
  params.foldl (fun d p => odSet d p.1 p.2)
    [("apiKey", apiKey), ("nonce", nonce), ("signature", signature)]

/-- `IndependentreserveAuth.add_auth_to_data` with the time provider's
`int(time() * 1e3)` passed in as `timestampMs`. -/
def add_auth_to_data (url apiKey secret : String) (timestampMs : Nat)
    (params : List (String × String)) : String :=
  let nonce := toString timestampMs
  let message := auth_message url apiKey nonce params
  let signature := generate_signature secret message
  jsonDumps (auth_body_pairs apiKey nonce signature params)

/-- REST methods used by the connector. -/
inductive PyRESTMethod where
  | GET
  | POST
deriving DecidableEq, Repr

/-- The fields of a `RESTRequest` that `rest_authenticate` reads or writes. -/
structure PyRESTRequest where
  method : PyRESTMethod
  url : String
  params : List (String × String)
  data : Option String
  headers : List (String × String)
deriving DecidableEq, Repr

/-- `IndependentreserveAuth.rest_authenticate`: both the `POST` branch and the
other branch call `add_auth_to_data(url=request.url, params=request.params)`;
the result is stored in `request.data` and the `Content-Type` header is
merged in. -/
def rest_authenticate (apiKey secret : String) (timestampMs : Nat)
    (request : PyRESTRequest) : PyRESTRequest :=
  let data :=
    if request.method = PyRESTMethod.POST then
      add_auth_to_data request.url apiKey secret timestampMs request.params
    else
      add_auth_to_data request.url apiKey secret timestampMs request.params
  { request with
      data := some data
      headers := odSet request.headers "Content-Type" "application/json" }

/-! ## `independentreserve_order_book.py` (`IndependentreserveOrderBook`)

Timestamp cleanup in `snapshot_message_from_exchange` /
`diff_message_from_exchange`:

    t = datetime.datetime.strptime(msg["CreatedTimestampUtc"].split(".")[0],
                                   "%Y-%m-%dT%H:%M:%S")
    t = t + datetime.timedelta(
        microseconds=int(msg["CreatedTimestampUtc"].split(".")[1][:-1]) / 1000)

The instant is embedded as the total count of microseconds since the
proleptic-Gregorian day 0001-01-01 (CPython `datetime.toordinal`
arithmetic), so that the `timedelta` addition is ordinary `Nat` addition. -/

/-- `0`-`9`, as CPython `int` accepts inside a plain digit string. -/
def isDigitChar (c : Char) : Bool := 48 ≤ c.toNat && c.toNat ≤ 57

/-- CPython `int(s)` restricted to plain non-empty digit strings (the only
shape these payload fields take; CPython would additionally accept sign,
surrounding whitespace and `_` separators). -/
def digitsToNat? (l : List Char) : Option Nat :=
  if l.isEmpty then none
  else if l.all isDigitChar then
    some (l.foldl (fun n c => n * 10 + (c.toNat - 48)) 0)
  else none

/-- CPython `str.split(sep)` for a one-character separator, over character
lists. -/
def splitOnChar (c : Char) : List Char → List (List Char)
  | [] => [[]]
  | ch :: rest =>
      let r := splitOnChar c rest
      if ch = c then [] :: r else (ch :: r.headD []) :: r.tail

/-- The parsed fields of `%Y-%m-%dT%H:%M:%S`. -/
structure PyDateTime where
  year : Nat
  month : Nat
  day : Nat
  hour : Nat
  minute : Nat
  second : Nat
deriving DecidableEq, Repr

def isLeapYear (y : Nat) : Bool := y % 4 == 0 && (y % 100 != 0 || y % 400 == 0)

def daysInMonth (y m : Nat) : Nat :=
  if m == 2 then (if isLeapYear y then 29 else 28)
  else if m == 4 || m == 6 || m == 9 || m == 11 then 30
  else 31

/-- A date/time component: 1 or 2 digit characters (CPython `_strptime`
accepts both), returned as its value. -/
def parseField2 (l : List Char) : Option Nat :=
  if l.length == 1 || l.length == 2 then digitsToNat? l else none

/-- CPython `datetime.strptime(s, "%Y-%m-%dT%H:%M:%S")`: a 4-digit year,
1-2 digit month/day/hour/minute/second, with the `datetime` range checks;
anything else raises `ValueError` (`none` here).  The separators are the
characters `T` (84), `-` (45) and `:` (58). -/
def strptime_datetime (l : List Char) : Option PyDateTime :=
  match splitOnChar (Char.ofNat 84) l with
  | [datePart, timePart] =>
    (match splitOnChar (Char.ofNat 45) datePart, splitOnChar (Char.ofNat 58) timePart with
     | [ys, ms, ds], [hs, mins, secs] =>
       (match (if ys.length == 4 then digitsToNat? ys else none),
              parseField2 ms, parseField2 ds, parseField2 hs,
              parseField2 mins, parseField2 secs with
        | some y, some mo, some d, some h, some mi, some se =>
          if 1 ≤ mo && mo ≤ 12 && 1 ≤ d && d ≤ daysInMonth y mo &&
             h ≤ 23 && mi ≤ 59 && se ≤ 59 && 1 ≤ y && y ≤ 9999 then
            some ⟨y, mo, d, h, mi, se⟩
          else none
        | _, _, _, _, _, _ => none)
     | _, _ => none)
  | _ => none

/-- Days in the proleptic Gregorian calendar strictly before year `y`. -/
def daysBeforeYear (y : Nat) : Nat :=
  let n := y - 1
  365 * n + n / 4 + n / 400 - n / 100

/-- Days in year `y` strictly before month `m`. -/
def daysBeforeMonth (y m : Nat) : Nat :=
  ((List.range (m - 1)).map (fun i => daysInMonth y (i + 1))).sum

/-- CPython `datetime.toordinal()`: 0001-01-01 is day 1. -/
def toOrdinal (dt : PyDateTime) : Nat :=
  daysBeforeYear dt.year + daysBeforeMonth dt.year dt.month + dt.day

/-- A `datetime` plus a microsecond offset, as one absolute microsecond
count. -/
def instantMicros (dt : PyDateTime) (micros : Nat) : Nat :=
  ((((toOrdinal dt) * 24 + dt.hour) * 60 + dt.minute) * 60 + dt.second) * 1000000 + micros

/-- `datetime.timedelta(microseconds=n / 1000)` for an integer `n`: CPython
divides in binary floating point and rounds the result half-to-even to whole
microseconds.  For the magnitudes the connector ever sees the double division
is exact enough that this equals half-to-even rounding of the rational
`n / 1000`, which is what is embedded. -/
def pyRoundMicros (n : Nat) : Nat :=
  let q := n / 1000
  let r := n % 1000
  if r < 500 then q else if 500 < r then q + 1 else if q % 2 == 0 then q else q + 1

/-- The timestamp cleanup of `snapshot_message_from_exchange` (and of the
REST branch of `diff_message_from_exchange`) applied to a
`CreatedTimestampUtc` string: `strptime` on the part before the first `.`,
then `int(...)` of the part after it minus its final character, divided by
1000 and added as `timedelta` microseconds.  `none` embeds the raised
`IndexError` / `ValueError` when the string has no `.`, the date part does
not parse, or the fractional part (after dropping its last character) is not
a plain digit string (CPython `int` would also accept sign, surrounding
whitespace and `_` separators, which these payloads never contain). -/
def parse_created_timestamp_utc (s : String) : Option Nat :=
  let parts := splitOnChar (Char.ofNat 46) s.data
  match strptime_datetime (parts.headD []) with
  | none => none
  | some dt =>
    match parts.get? 1 with
    | none => none
    | some frac =>
      match digitsToNat? frac.dropLast with
      | none => none
      | some n => some (instantMicros dt (pyRoundMicros n))

/-- The REST `GetOrderBook` payload fields read by
`snapshot_message_from_exchange`; order rows carry `(Price, Volume)`. -/
structure PySnapshotPayload where
  CreatedTimestampUtc : String
  BuyOrders : List (Rat × Rat)
  SellOrders : List (Rat × Rat)
deriving DecidableEq, Repr

/-- The content of the produced `OrderBookMessage` of type `SNAPSHOT`. -/
structure PySnapshotMessage where
  trading_pair : String
  update_id : Nat
  bids : List (Rat × Rat)
  asks : List (Rat × Rat)
  timestamp : Rat
deriving DecidableEq, Repr

/-- `IndependentreserveOrderBook.snapshot_message_from_exchange` with the
`metadata` dict embedded as its `trading_pair` entry (every caller passes
exactly that).  The parsed `CreatedTimestampUtc` instant `t` is computed and
then never used; a parse failure is a raised exception (`none`). -/
def snapshot_message_from_exchange (msg : PySnapshotPayload) (timestamp : Rat)
    (trading_pair : String) : Option PySnapshotMessage :=
  match parse_created_timestamp_utc msg.CreatedTimestampUtc with
  | none => none
  | some _t =>
      some { trading_pair := trading_pair
             update_id := 0
             bids := msg.BuyOrders.map (fun buy => (buy.1, buy.2))
             asks := msg.SellOrders.map (fun ask => (ask.1, ask.2))
             timestamp := timestamp }

/-- `listen_for_order_book_snapshots` over one session: every successful
hourly fetch is normalized with `snapshot_message_from_exchange` and emitted
in order; a fetch or parse failure is logged and produces no message. -/
def listen_snapshot_messages (fetches : List (PySnapshotPayload × Rat))
    (trading_pair : String) : List PySnapshotMessage :=
  fetches.filterMap (fun f => snapshot_message_from_exchange f.1 f.2 trading_pair)

/-- The `Data` object of a websocket trade event, as read by
`trade_message_from_exchange`; `Price` is the per-currency price dict in
insertion order. -/
structure PyTradeData where
  Side : String
  TradeGuid : String
  Volume : String
  Price : List (String × String)
deriving DecidableEq, Repr

/-- A websocket trade event (after `msg.update(metadata)` the trading pair
is carried separately). -/
structure PyTradeEvent where
  Time : Nat
  Nonce : Nat
  Data : PyTradeData
deriving DecidableEq, Repr

/-- The content of the produced `OrderBookMessage` of type `TRADE`.
`trade_type` embeds `float(TradeType.SELL.value) = 2` /
`float(TradeType.BUY.value) = 1` (the `TradeType` enum lives in
`hummingbot.core.data_type.common`). -/
structure PyTradeMessage where
  trading_pair : String
  trade_type : Rat
  trade_id : String
  update_id : Nat
  price : String
  amount : String
  timestamp : Rat
deriving DecidableEq, Repr

/-- `IndependentreserveOrderBook.trade_message_from_exchange`.  The loop

    for key, value in msg["Data"]["Price"].items():
        if currencies[1] == key:
            price = value

binds `price` to the value of the entry whose key equals
`trading_pair.split("-")[1]` exactly (string equality, case included).  When
the pair has no `-` the subscript raises `IndexError`; when no key matches,
`price` stays unbound and the message build raises `UnboundLocalError`:
both are `none` here. -/
def trade_message_from_exchange (msg : PyTradeEvent) (trading_pair : String) :
    Option PyTradeMessage :=
  let currencies := (splitOnChar (Char.ofNat 45) trading_pair.data).map List.asString
  match currencies.get? 1 with
  | none => none
  | some secondary =>
    let priceFound := msg.Data.Price.foldl
      (fun acc e => if secondary == e.1 then some e.2 else acc) none
    priceFound.map (fun price =>
      { trading_pair := trading_pair
        trade_type := if msg.Data.Side == "Sell" then 2 else 1
        trade_id := msg.Data.TradeGuid
        update_id := msg.Nonce
        price := price
        amount := msg.Data.Volume
        timestamp := (msg.Time : Rat) / 1000 })

/-! ## Websocket routing in `listen_for_subscriptions`

    event_type = data.get("Event")
    if event_type in ["Heartbeat", "Subscriptions"] in data:
        continue
    if event_type in ["NewOrder", "OrderChanged", "OrderCanceled"]:
        self._message_queue[CONSTANTS.DIFF_EVENT_TYPE].put_nowait(data)
        continue
    if event_type in [CONSTANTS.TRADE_EVENT_TYPE]:
        self._message_queue[CONSTANTS.TRADE_EVENT_TYPE].put_nowait(data)

The first line is a chained comparison, equivalent to
`(event_type in [...]) and ([...] in data)`.  Whenever the left conjunct is
true, CPython evaluates `["Heartbeat", "Subscriptions"] in data`, which hashes
a list and raises `TypeError: unhashable type: 'list'` (caught by the outer
handler, which logs an error and reconnects).  When it is false the chain
short-circuits and no error occurs. -/

/-- Where `listen_for_subscriptions` sends one websocket message, keyed by
`data.get("Event")` (`none` when the `Event` key is missing). -/
inductive WSRoute where
  | diffQueue
  | tradeQueue
  | dropped
  | typeErrorUnhashable
deriving DecidableEq, Repr

def route_ws_event (eventType : Option String) : WSRoute :=
  if eventType == some "Heartbeat" || eventType == some "Subscriptions" then
    WSRoute.typeErrorUnhashable
  else if eventType == some "NewOrder" || eventType == some "OrderChanged" ||
      eventType == some "OrderCanceled" then
    WSRoute.diffQueue
  else if eventType == some "Trade" then WSRoute.tradeQueue
  else WSRoute.dropped

/-- The events a stream of websocket messages contributes to the order-book
diff queue (the only source of diff normalization work). -/
def diff_queue_events (events : List (Option String)) : List (Option String) :=
  events.filter (fun e => route_ws_event e == WSRoute.diffQueue)

/-! ## `independentreserve_api_order_book_data_source.py`
(`IndependentreserveAPIOrderBookDataSource`) -/

/-- One element of the `GetRecentTrades` response `Trades` array, reduced to
the only field `_get_last_traded_price` reads. -/
structure PyRecentTrade where
  SecondaryCurrencyTradePrice : Rat
deriving DecidableEq, Repr

/-- A `GetRecentTrades` REST response together with its HTTP status. -/
structure PyRecentTradesResponse where
  status : Nat
  Trades : List PyRecentTrade
deriving DecidableEq, Repr

/-- `IndependentreserveAPIOrderBookDataSource._get_last_traded_price`
(leading underscore dropped): on HTTP 200 it returns
`float(resp_json["Trades"][0]["SecondaryCurrencyTradePrice"])`; on any other
status the coroutine falls through and returns `None`; an empty `Trades`
array raises `IndexError`.  `none` embeds both non-results. -/
def get_last_traded_price (resp : PyRecentTradesResponse) : Option Rat :=
  if resp.status == 200 then
    (resp.Trades.get? 0).map (fun tr => tr.SecondaryCurrencyTradePrice)
  else none

/-- `IndependentreserveAPIOrderBookDataSource.get_last_traded_prices`: one
`GetRecentTrades` request per trading pair (`respOf` is the exchange), zipped
back into a pair-to-price map. -/
def get_last_traded_prices (trading_pairs : List String)
    (respOf : String → PyRecentTradesResponse) : List (String × Option Rat) :=
  trading_pairs.map (fun p => (p, get_last_traded_price (respOf p)))

/-- Modelled from the spec: the claim sentence
`getLastTradedPrices(pairs, domain) -> map[TradingPair]price (best bid/ask
midpoint over GetRecentTrades)` describes the price of a pair as the midpoint
of the best bid and best ask prices. -/
def spec_last_traded_price (bestBid bestAsk : Rat) : Rat := (bestBid + bestAsk) / 2

/-- An exchange symbol: the `(primary, secondary)` currency-code tuple used
as the `bidict` key in `_init_trading_pair_symbols`. -/
abbrev SymbolPair := String × String

/-- The per-domain `bidict` in insertion order. -/
abbrev SymbolBidict := List (SymbolPair × String)

/-- The exceptions the symbol-map initialization can raise. -/
inductive PyError where
  | nameError
  | valueDuplication
deriving DecidableEq, Repr

/-- `mapping[pair] = value` on a `bidict`: assigning a value already bound to
a different key raises `ValueDuplicationError`; re-assigning an existing key
overwrites in place; otherwise the pair is appended. -/
def bidict_setitem (m : SymbolBidict) (k : SymbolPair) (v : String) :
    Except PyError SymbolBidict :=
  if m.any (fun e => e.2 == v && e.1 != k) then Except.error PyError.valueDuplication
  else Except.ok
    (if m.any (fun e => e.1 == k) then m.map (fun e => if e.1 == k then (k, v) else e)
     else m ++ [(k, v)])

/-- `itertools.product(primary_data, secondary_data)`. -/
def all_currency_codes (primary secondary : List String) : List SymbolPair :=
  primary.flatMap (fun p => secondary.map (fun s => (p, s)))

/-- The `mapping` loop of `_init_trading_pair_symbols`:

    mapping = bidict()
    for pair in all_currency_codes:
        mapping[pair] = f"{pair[0]}-{pair[1]}"
-/
def build_symbol_mapping (primary secondary : List String) :
    Except PyError SymbolBidict :=
  (all_currency_codes primary secondary).foldlM
    (fun m pr => bidict_setitem m pr (pr.1 ++ "-" ++ pr.2)) []

/-- The class-level `_trading_pair_symbol_map`, domain-keyed. -/
abbrev SymbolMapState := List (String × SymbolBidict)

/-- `IndependentreserveAPIOrderBookDataSource._init_trading_pair_symbols`
(leading underscore dropped).  The two currency-code fetches are passed in as
`Option` results: `none` when the request raised (the `except` clause only
logs) or returned a non-200 status, in both of which cases the local
`primary_data` / `secondary_data` variable is never assigned and the later
`itertools.product(primary_data, secondary_data)` raises `NameError`.  The
class map is assigned only by the final statement, on success. -/
def init_trading_pair_symbols (st : SymbolMapState) (domain : String)
    (primary secondary : Option (List String)) : Except PyError SymbolMapState :=
  match primary, secondary with
  | some p, some s =>
      match build_symbol_mapping p s with
      | Except.error e => Except.error e
      | Except.ok mapping => Except.ok (odSet st domain mapping)
  | _, _ => Except.error PyError.nameError

/-- The class state visible after a call to `_init_trading_pair_symbols`:
an escaped exception leaves `_trading_pair_symbol_map` as it was, because the
assignment `cls._trading_pair_symbol_map[domain] = mapping` is the function's
final statement. -/
def state_after_init (st : SymbolMapState) (domain : String)
    (primary secondary : Option (List String)) : SymbolMapState :=
  match init_trading_pair_symbols st domain primary secondary with
  | Except.ok st2 => st2
  | Except.error _ => st

/-- `IndependentreserveAPIOrderBookDataSource.trading_pair_symbol_map_ready`:
`domain in cls._trading_pair_symbol_map and
len(cls._trading_pair_symbol_map[domain]) > 0`. -/
def trading_pair_symbol_map_ready (st : SymbolMapState) (domain : String) : Bool :=
  match st.find? (fun e => e.1 == domain) with
  | some e => decide (0 < e.2.length)
  | none => false

/-- `trading_pair_associated_to_exchange_symbol` on a populated map:
`symbol_map[symbol]`, with `KeyError` (`none`) on an absent key. -/
def trading_pair_associated_to_exchange_symbol (m : SymbolBidict)
    (symbol : SymbolPair) : Option String :=
  (m.find? (fun e => e.1 == symbol)).map (fun e => e.2)

/-- `exchange_symbol_associated_to_pair` on a populated map:
`symbol_map.inverse[trading_pair]`, with `KeyError` (`none`) on an absent
value. -/
def exchange_symbol_associated_to_pair (m : SymbolBidict)
    (trading_pair : String) : Option SymbolPair :=
  (m.find? (fun e => e.2 == trading_pair)).map (fun e => e.1)

/-- The invariant the `_init_trading_pair_symbols` loop maintains on its
`bidict`: every value is `primary-secondary` for its key, and both the key
column and the value column are duplicate-free (the `bidict` contract). -/
def SymbolMapGood (m : SymbolBidict) : Prop :=
  (∀ e ∈ m, e.2 = e.1.1 ++ "-" ++ e.1.2) ∧
    (m.map Prod.fst).Nodup ∧ (m.map Prod.snd).Nodup

/-! ## Helper lemmas -/

theorem foldl_append_singleton {α β : Type} (f : α → β) :
    ∀ (l : List α) (init : List β),
      l.foldl (fun acc p => acc ++ [f p]) init = init ++ l.map f
  | [], _ => by simp
  | p :: l, init => by
      simp [foldl_append_singleton f l (init ++ [f p])]

theorem odSet_append_of_fresh {β : Type} (d : List (String × β)) (k : String) (v : β)
    (h : k ∉ d.map Prod.fst) : odSet d k v = d ++ [(k, v)] := by
  have hany : d.any (fun e => e.1 == k) = false := by
    rw [List.any_eq_false]
    intro e he
    simp only [beq_iff_eq]
    intro hk
    exact h (hk ▸ List.mem_map_of_mem Prod.fst he)
  simp [odSet, hany]

theorem foldl_odSet_keys {β : Type} :
    ∀ (params : List (String × β)) (d : List (String × β)),
      (d.map Prod.fst ++ params.map Prod.fst).Nodup →
      (params.foldl (fun acc p => odSet acc p.1 p.2) d).map Prod.fst =
        d.map Prod.fst ++ params.map Prod.fst
  | [], d => by simp
  | p :: t, d => by
      intro h
      have hfresh : p.1 ∉ d.map Prod.fst := by
        intro hk
        rcases List.nodup_append.mp h with ⟨-, -, hdisj⟩
        exact hdisj hk (by simp)
      rw [List.foldl_cons, odSet_append_of_fresh d p.1 p.2 hfresh]
      have h2 : ((d ++ [(p.1, p.2)]).map Prod.fst ++ t.map Prod.fst).Nodup := by
        simpa [List.append_assoc] using h
      rw [foldl_odSet_keys t (d ++ [(p.1, p.2)]) h2]
      simp

/-! ## Claims about `IndependentreserveAuth` -/

/-- C1: for every URL, API key, secret, nonce value and parameter map,
`rest_authenticate` signs the comma-join of
`[url, "apiKey=" + key, "nonce=" + nonce]` followed by one `"k=v"` entry per
request parameter in the parameter map's (insertion-ordered) key order, and
the signature placed in the serialized body is the hex-encoded, upper-cased
HMAC-SHA256 of that string keyed by the secret. -/
theorem rest_authenticate_signs_comma_joined_message
    (apiKey secret : String) (timestampMs : Nat) (request : PyRESTRequest) :
    (rest_authenticate apiKey secret timestampMs request).data =
      some (jsonDumps (auth_body_pairs apiKey (toString timestampMs)
        ((hexdigest (hmacSha256 (strBytes secret) (strBytes (String.intercalate ","
          ([request.url, "apiKey=" ++ apiKey, "nonce=" ++ toString timestampMs] ++
            request.params.map (fun p => p.1 ++ "=" ++ p.2)))))).toUpper)
        request.params)) := by
  have hm : auth_message request.url apiKey (toString timestampMs) request.params =
      String.intercalate ","
        ([request.url, "apiKey=" ++ apiKey, "nonce=" ++ toString timestampMs] ++
          request.params.map (fun p => p.1 ++ "=" ++ p.2)) := by
    simp [auth_message, foldl_append_singleton]
  simp [rest_authenticate, add_auth_to_data, generate_signature, hm]

/-- C5 counterexample: a request parameter named `nonce` does not append a
fourth key to the serialized body as the claim requires; the `OrderedDict`
assignment overwrites the auth field in place, so the body keys are just
`apiKey, nonce, signature`. -/
theorem auth_body_param_collision_cex :
    (auth_body_pairs "K" (toString 7)
        (generate_signature "S" (auth_message "https://u" "K" (toString 7) [("nonce", "9")]))
        [("nonce", "9")]).map Prod.fst = ["apiKey", "nonce", "signature"] ∧
      ["apiKey", "nonce", "signature"] ≠ ["apiKey", "nonce", "signature", "nonce"] := by
  exact ⟨rfl, by decide⟩

/-- C5 (amended): provided no request parameter reuses one of the keys
`apiKey`, `nonce`, `signature` (and the parameter keys are distinct, as dict
keys are), the serialized request body is the JSON object whose keys are
exactly `apiKey, nonce, signature` followed by the original parameters in
their original order. -/
theorem auth_body_key_order (url apiKey secret : String) (timestampMs : Nat)
    (params : List (String × String))
    (h : (["apiKey", "nonce", "signature"] ++ params.map Prod.fst).Nodup) :
    add_auth_to_data url apiKey secret timestampMs params =
        jsonDumps (auth_body_pairs apiKey (toString timestampMs)
          (generate_signature secret
            (auth_message url apiKey (toString timestampMs) params)) params) ∧
      (auth_body_pairs apiKey (toString timestampMs)
          (generate_signature secret
            (auth_message url apiKey (toString timestampMs) params)) params).map Prod.fst =
        ["apiKey", "nonce", "signature"] ++ params.map Prod.fst := by
  constructor
  · rfl
  · have h2 : (([("apiKey", apiKey), ("nonce", toString timestampMs),
        ("signature", generate_signature secret
          (auth_message url apiKey (toString timestampMs) params))] :
          List (String × String)).map Prod.fst ++ params.map Prod.fst).Nodup := by
      simpa using h
    simpa [auth_body_pairs] using foldl_odSet_keys params _ h2

/-- C5 witness: a collision-free parameter map realizes the amended key
order. -/
theorem auth_body_key_order_witness :
    ((["apiKey", "nonce", "signature"] ++
        ([("primaryCurrencyCode", "Xbt")] : List (String × String)).map Prod.fst).Nodup) ∧
      (auth_body_pairs "K" (toString 7)
          (generate_signature "S"
            (auth_message "https://u" "K" (toString 7) [("primaryCurrencyCode", "Xbt")]))
          [("primaryCurrencyCode", "Xbt")]).map Prod.fst =
        ["apiKey", "nonce", "signature"] ++
          ([("primaryCurrencyCode", "Xbt")] : List (String × String)).map Prod.fst :=
  ⟨by decide,
   (auth_body_key_order "https://u" "K" "S" 7 [("primaryCurrencyCode", "Xbt")] (by decide)).2⟩

/-! ## Claims about `IndependentreserveOrderBook` -/

theorem foldl_price_no_match (k : String) :
    ∀ (l : List (String × String)) (acc : Option String),
      (∀ e ∈ l, e.1 ≠ k) →
      l.foldl (fun acc e => if k == e.1 then some e.2 else acc) acc = acc
  | [], _ => by intro _; rfl
  | e :: t, acc => by
      intro h
      have he : ¬ (k == e.1) = true := by
        simp only [beq_iff_eq]
        intro hk
        exact h e (by simp) hk.symm
      rw [List.foldl_cons, if_neg he]
      exact foldl_price_no_match k t acc (fun x hx => h x (by simp [hx]))

theorem foldl_price_of_mem (k v : String) :
    ∀ (l : List (String × String)),
      (l.map Prod.fst).Nodup → (k, v) ∈ l →
      l.foldl (fun acc e => if k == e.1 then some e.2 else acc) none = some v
  | [], _, hmem => by cases hmem
  | e :: t, hnd, hmem => by
      rw [List.map_cons, List.nodup_cons] at hnd
      rcases hnd with ⟨hni, hndt⟩
      rcases List.mem_cons.mp hmem with heq | hmemt
      · subst heq
        rw [List.foldl_cons, if_pos (by simp)]
        refine foldl_price_no_match k t (some v) ?_
        intro x hx hk
        exact hni (List.mem_map.mpr ⟨x, hx, hk⟩)
      · have hne : ¬ (k == e.1) = true := by
          simp only [beq_iff_eq]
          intro hk
          exact hni (List.mem_map.mpr ⟨(k, v), hmemt, hk⟩)
        rw [List.foldl_cons, if_neg hne]
        exact foldl_price_of_mem k v t hndt hmemt

/-- C2 counterexample: the secondary-currency match in
`trade_message_from_exchange` is case-sensitive, not case-insensitive.  For
the claim's own example, `Data.Price = {"usd": "100", "aud": "140"}` and
trading pair `"XBT-AUD"`, no dict key equals `"AUD"`, the local `price` is
never bound and the code raises `UnboundLocalError` instead of producing a
message with price 140. -/
theorem trade_message_case_sensitive_cex :
    trade_message_from_exchange
        ⟨1000, 5, ⟨"Buy", "guid-1", "2", [("usd", "100"), ("aud", "140")]⟩⟩ "XBT-AUD" =
      none := by decide

/-- C2 (amended): the produced trade message carries the value of the
`Data.Price` entry whose key equals the trading pair's secondary currency
code exactly (case-sensitive string equality, as with the lower-case pairs
built by `listen_for_trades`). -/
theorem trade_message_price_exact_match (msg : PyTradeEvent)
    (trading_pair sec v : String)
    (hsec : ((splitOnChar (Char.ofNat 45) trading_pair.data).map List.asString).get? 1 =
      some sec)
    (hnodup : (msg.Data.Price.map Prod.fst).Nodup)
    (hmem : (sec, v) ∈ msg.Data.Price) :
    (trade_message_from_exchange msg trading_pair).map (fun m => m.price) = some v := by
  simp only [trade_message_from_exchange, hsec]
  rw [foldl_price_of_mem sec v msg.Data.Price hnodup hmem]
  rfl

/-- C2 witness: the claim's price dict with the pair `"Xbt-aud"` produced by
`listen_for_trades` carries price `"140"`. -/
theorem trade_message_price_exact_match_witness :
    (((splitOnChar (Char.ofNat 45) ("Xbt-aud" : String).data).map List.asString).get? 1 =
        some "aud") ∧
      (trade_message_from_exchange
          ⟨1000, 5, ⟨"Sell", "g", "2", [("usd", "100"), ("aud", "140")]⟩⟩ "Xbt-aud").map
        (fun m => m.price) = some "140" :=
  ⟨by decide,
   trade_message_price_exact_match
     ⟨1000, 5, ⟨"Sell", "g", "2", [("usd", "100"), ("aud", "140")]⟩⟩
     "Xbt-aud" "aud" "140" (by decide) (by decide) (by decide)⟩

/-- C3: an unrecognized websocket event type such as `"SomethingNew"` is
routed nowhere - it contributes nothing to the diff queue and raises no
error - but a `"Heartbeat"` (or `"Subscriptions"`) event makes the chained
comparison `event_type in ["Heartbeat", "Subscriptions"] in data` hash a
list and raise `TypeError`, so the code does not satisfy the claim for every
non-diff event type. -/
theorem unknown_ws_event_dropped_heartbeat_raises :
    route_ws_event (some "SomethingNew") = WSRoute.dropped ∧
      diff_queue_events [some "SomethingNew"] = [] ∧
      route_ws_event (some "Heartbeat") = WSRoute.typeErrorUnhashable := by decide

/-- C4 counterexample: `"2021-05-01T12:00:00.1234567Z"` does not parse to
the base instant plus 123456 microseconds, and the parsed instant is not
independent of the trailing-digit count: dropping the final digit
(`.123456Z`) yields a different instant. -/
theorem created_timestamp_parse_cex :
    parse_created_timestamp_utc "2021-05-01T12:00:00.1234567Z" ≠
        (parse_created_timestamp_utc "2021-05-01T12:00:00.0000000Z").map
          (fun b => b + 123456) ∧
      parse_created_timestamp_utc "2021-05-01T12:00:00.1234567Z" ≠
        parse_created_timestamp_utc "2021-05-01T12:00:00.123456Z" := by decide

/-- C4 (amended): the parser drops only the final character of the
sub-second field (the `Z`), interprets the remaining digits as an integer,
divides by 1000 and rounds half-to-even to whole microseconds; so
`.1234567Z` parses to the base instant plus 1235 microseconds while
`.123456Z` parses to the base instant plus 123 microseconds - the instant
depends on the trailing-digit count. -/
theorem created_timestamp_parse_amended :
    parse_created_timestamp_utc "2021-05-01T12:00:00.1234567Z" =
        (parse_created_timestamp_utc "2021-05-01T12:00:00.0000000Z").map
          (fun b => b + 1235) ∧
      parse_created_timestamp_utc "2021-05-01T12:00:00.123456Z" =
        (parse_created_timestamp_utc "2021-05-01T12:00:00.0000000Z").map
          (fun b => b + 123) := by decide

/-! ## Claims about `IndependentreserveAPIOrderBookDataSource` -/

/-- C6 counterexample: on a successful `GetRecentTrades` response the code
returns the most recent trade's `SecondaryCurrencyTradePrice` (here 100),
which is not the midpoint of the best bid and best ask prices in general
(for best bid 90 and best ask 100 the midpoint is 95). -/
theorem last_traded_price_not_midpoint_cex :
    get_last_traded_price ⟨200, [⟨100⟩]⟩ = some 100 ∧
      spec_last_traded_price 90 100 = 95 ∧ (100 : Rat) ≠ 95 := by
  refine ⟨rfl, ?_, by norm_num⟩
  rw [spec_last_traded_price]
  norm_num

/-- C6 (amended): for every trading pair whose `GetRecentTrades` request
returns HTTP 200 with a non-empty `Trades` array, `get_last_traded_prices`
maps the pair to the first (most recent) trade's
`SecondaryCurrencyTradePrice`. -/
theorem get_last_traded_prices_first_trade (pairs : List String)
    (respOf : String → PyRecentTradesResponse) (p : String) (tr : PyRecentTrade)
    (hp : p ∈ pairs) (h200 : (respOf p).status = 200)
    (hfirst : (respOf p).Trades.get? 0 = some tr) :
    (p, some tr.SecondaryCurrencyTradePrice) ∈ get_last_traded_prices pairs respOf := by
  have hval : get_last_traded_price (respOf p) = some tr.SecondaryCurrencyTradePrice := by
    unfold get_last_traded_price
    rw [h200, hfirst]
    rfl
  rw [get_last_traded_prices]
  exact List.mem_map.mpr ⟨p, hp, by rw [hval]⟩

/-- C6 witness: one pair, a 200 response whose latest trade price is 100. -/
theorem get_last_traded_prices_first_trade_witness :
    ("Xbt-Aud" ∈ ["Xbt-Aud"]) ∧
      ((fun _ : String => (⟨200, [⟨100⟩]⟩ : PyRecentTradesResponse)) "Xbt-Aud").status =
        200 ∧
      ((fun _ : String => (⟨200, [⟨100⟩]⟩ : PyRecentTradesResponse)) "Xbt-Aud").Trades.get?
          0 = some ⟨100⟩ ∧
      ("Xbt-Aud", some ((100 : Rat))) ∈
        get_last_traded_prices ["Xbt-Aud"] (fun _ => ⟨200, [⟨100⟩]⟩) :=
  ⟨by decide, by rfl, by rfl,
   get_last_traded_prices_first_trade ["Xbt-Aud"] (fun _ => ⟨200, [⟨100⟩]⟩) "Xbt-Aud"
     ⟨100⟩ (by decide) (by rfl) (by rfl)⟩

/-- C7: when either currency-code fetch fails (raises, or returns a non-200
status, both of which leave the local variable unbound so that
`itertools.product` raises `NameError`), `_init_trading_pair_symbols`
escapes with the exception before the class map assignment: the domain's
symbol map is unchanged, so `trading_pair_symbol_map_ready` is unchanged
(in particular still `False` when it was `False`) and the next
`trading_pair_symbol_map` caller re-enters initialization. -/
theorem init_failure_publishes_nothing (st : SymbolMapState) (domain : String)
    (primary secondary : Option (List String))
    (h : primary = none ∨ secondary = none) :
    init_trading_pair_symbols st domain primary secondary =
        Except.error PyError.nameError ∧
      state_after_init st domain primary secondary = st ∧
      trading_pair_symbol_map_ready (state_after_init st domain primary secondary)
          domain =
        trading_pair_symbol_map_ready st domain := by
  have hinit : init_trading_pair_symbols st domain primary secondary =
      Except.error PyError.nameError := by
    rcases h with h | h
    · subst h; cases secondary <;> rfl
    · subst h; cases primary <;> rfl
  refine ⟨hinit, ?_, ?_⟩
  · simp [state_after_init, hinit]
  · simp [state_after_init, hinit]

/-- C7 witness: a failed primary fetch with an empty class map leaves the
class map empty. -/
theorem init_failure_publishes_nothing_witness :
    ((none : Option (List String)) = none ∨
        (some ["Aud"] : Option (List String)) = none) ∧
      state_after_init [] "com" none (some ["Aud"]) = [] :=
  ⟨Or.inl rfl,
   (init_failure_publishes_nothing [] "com" none (some ["Aud"]) (Or.inl rfl)).2.1⟩

theorem bidict_setitem_good (m m2 : SymbolBidict) (k : SymbolPair)
    (hgood : SymbolMapGood m)
    (h : bidict_setitem m k (k.1 ++ "-" ++ k.2) = Except.ok m2) :
    SymbolMapGood m2 := by
  obtain ⟨hfun, hknd, hvnd⟩ := hgood
  rw [bidict_setitem] at h
  by_cases hdup : (m.any fun e => e.2 == k.1 ++ "-" ++ k.2 && e.1 != k) = true
  · rw [if_pos hdup] at h; cases h
  · rw [if_neg hdup] at h
    have hdup2 : ∀ e ∈ m, e.2 = k.1 ++ "-" ++ k.2 → e.1 = k := by
      intro e he hv
      have := List.any_eq_false.mp ((Bool.not_eq_true _) ▸ hdup) e he
      simp only [Bool.and_eq_true, beq_iff_eq, bne_iff_ne, not_and, not_not] at this
      exact this hv
    by_cases hkey : (m.any fun e => e.1 == k) = true
    · rw [if_pos hkey] at h
      have hid : m.map (fun e => if e.1 == k then (k, k.1 ++ "-" ++ k.2) else e) = m := by
        have hcong : ∀ e ∈ m,
            (if e.1 == k then (k, k.1 ++ "-" ++ k.2) else e) = id e := by
          intro e he
          by_cases hek : (e.1 == k) = true
          · have h1 : e.1 = k := beq_iff_eq.mp hek
            have h2 := hfun e he
            rw [if_pos hek]
            simp only [id_eq]
            subst h1
            rw [← h2]
          · rw [if_neg hek]; rfl
        rw [List.map_congr_left hcong, List.map_id]
      rw [hid] at h
      cases h
      exact ⟨hfun, hknd, hvnd⟩
    · rw [if_neg hkey] at h
      have hknotin : k ∉ m.map Prod.fst := by
        intro hkin
        rcases List.mem_map.mp hkin with ⟨e, he, hek⟩
        have := List.any_eq_false.mp ((Bool.not_eq_true _) ▸ hkey) e he
        simp only [beq_iff_eq] at this
        exact this hek
      have hvnotin : (k.1 ++ "-" ++ k.2) ∉ m.map Prod.snd := by
        intro hvin
        rcases List.mem_map.mp hvin with ⟨e, he, hev⟩
        exact hknotin (List.mem_map.mpr ⟨e, he, hdup2 e he hev⟩)
      cases h
      refine ⟨?_, ?_, ?_⟩
      · intro e he
        rcases List.mem_append.mp he with he | he
        · exact hfun e he
        · rcases List.mem_singleton.mp he with rfl
          rfl
      · rw [List.map_append]
        exact List.nodup_append.mpr ⟨hknd, List.nodup_singleton _,
          fun a ha hb => hknotin (by rcases List.mem_singleton.mp hb with rfl; exact ha)⟩
      · rw [List.map_append]
        exact List.nodup_append.mpr ⟨hvnd, List.nodup_singleton _,
          fun a ha hb => hvnotin (by rcases List.mem_singleton.mp hb with rfl; exact ha)⟩

theorem build_fold_good :
    ∀ (pairs : List SymbolPair) (m0 m : SymbolBidict),
      SymbolMapGood m0 →
      pairs.foldlM (fun acc pr => bidict_setitem acc pr (pr.1 ++ "-" ++ pr.2)) m0 =
        Except.ok m →
      SymbolMapGood m
  | [], m0, m => by
      intro hg h
      simp only [List.foldlM_nil] at h
      cases h
      exact hg
  | pr :: t, m0, m => by
      intro hg h
      rw [List.foldlM_cons] at h
      cases hstep : bidict_setitem m0 pr (pr.1 ++ "-" ++ pr.2) with
      | error e => rw [hstep] at h; cases h
      | ok m1 =>
          rw [hstep] at h
          exact build_fold_good t m1 m (bidict_setitem_good m0 m1 pr hg hstep) h

theorem find_by_fst :
    ∀ (m : SymbolBidict), (m.map Prod.fst).Nodup →
      ∀ e0 ∈ m, m.find? (fun e => e.1 == e0.1) = some e0
  | [], _, e0, hmem => by cases hmem
  | x :: t, hnd, e0, hmem => by
      rw [List.map_cons, List.nodup_cons] at hnd
      rcases hnd with ⟨hni, hndt⟩
      rcases List.mem_cons.mp hmem with heq | hmemt
      · subst heq
        exact List.find?_cons_of_pos _ (by simp)
      · rw [List.find?_cons_of_neg, find_by_fst t hndt e0 hmemt]
        simp only [beq_iff_eq]
        intro hx
        exact hni (List.mem_map.mpr ⟨e0, hmemt, hx.symm⟩)

theorem find_by_snd :
    ∀ (m : SymbolBidict), (m.map Prod.snd).Nodup →
      ∀ e0 ∈ m, m.find? (fun e => e.2 == e0.2) = some e0
  | [], _, e0, hmem => by cases hmem
  | x :: t, hnd, e0, hmem => by
      rw [List.map_cons, List.nodup_cons] at hnd
      rcases hnd with ⟨hni, hndt⟩
      rcases List.mem_cons.mp hmem with heq | hmemt
      · subst heq
        exact List.find?_cons_of_pos _ (by simp)
      · rw [List.find?_cons_of_neg, find_by_snd t hndt e0 hmemt]
        simp only [beq_iff_eq]
        intro hx
        exact hni (List.mem_map.mpr ⟨e0, hmemt, hx.symm⟩)

/-- C8: on any symbol map produced by a successful
`_init_trading_pair_symbols` run over the primary/secondary currency-code
product, the two lookup directions are mutually inverse on every key and
every value of the map, and each direction fails explicitly (`KeyError`,
`none` here) on an absent key. -/
theorem symbol_map_bijective (primary secondary : List String) (m : SymbolBidict)
    (h : build_symbol_mapping primary secondary = Except.ok m) :
    (∀ symbol ∈ m.map Prod.fst,
        (trading_pair_associated_to_exchange_symbol m symbol).bind
          (fun tp => exchange_symbol_associated_to_pair m tp) = some symbol) ∧
      (∀ tp ∈ m.map Prod.snd,
        (exchange_symbol_associated_to_pair m tp).bind
          (fun symbol => trading_pair_associated_to_exchange_symbol m symbol) =
          some tp) ∧
      (∀ symbol, symbol ∉ m.map Prod.fst →
        trading_pair_associated_to_exchange_symbol m symbol = none) ∧
      (∀ tp, tp ∉ m.map Prod.snd → exchange_symbol_associated_to_pair m tp = none) := by
  rw [build_symbol_mapping] at h
  have hgood : SymbolMapGood m :=
    build_fold_good (all_currency_codes primary secondary) [] m
      ⟨(by intro e he; cases he), List.nodup_nil, List.nodup_nil⟩ h
  obtain ⟨hfun, hknd, hvnd⟩ := hgood
  refine ⟨?_, ?_, ?_, ?_⟩
  · intro symbol hsym
    rcases List.mem_map.mp hsym with ⟨e0, he0, rfl⟩
    rw [trading_pair_associated_to_exchange_symbol, find_by_fst m hknd e0 he0]
    show exchange_symbol_associated_to_pair m e0.2 = some e0.1
    rw [exchange_symbol_associated_to_pair, find_by_snd m hvnd e0 he0]
    rfl
  · intro tp htp
    rcases List.mem_map.mp htp with ⟨e0, he0, rfl⟩
    rw [exchange_symbol_associated_to_pair, find_by_snd m hvnd e0 he0]
    show trading_pair_associated_to_exchange_symbol m e0.1 = some e0.2
    rw [trading_pair_associated_to_exchange_symbol, find_by_fst m hknd e0 he0]
    rfl
  · intro symbol habs
    have hnone : m.find? (fun e => e.1 == symbol) = none := by
      refine List.find?_eq_none.mpr ?_
      intro e he
      simp only [beq_iff_eq]
      intro hk
      exact habs (List.mem_map.mpr ⟨e, he, hk⟩)
    rw [trading_pair_associated_to_exchange_symbol, hnone]
    rfl
  · intro tp habs
    have hnone : m.find? (fun e => e.2 == tp) = none := by
      refine List.find?_eq_none.mpr ?_
      intro e he
      simp only [beq_iff_eq]
      intro hk
      exact habs (List.mem_map.mpr ⟨e, he, hk⟩)
    rw [exchange_symbol_associated_to_pair, hnone]
    rfl

/-- C8 witness: one primary and two secondary codes; the round trip through
both lookups returns the symbol `("Xbt", "Aud")`. -/
theorem symbol_map_bijective_witness :
    build_symbol_mapping ["Xbt"] ["Aud", "Usd"] =
        Except.ok [(("Xbt", "Aud"), "Xbt-Aud"), (("Xbt", "Usd"), "Xbt-Usd")] ∧
      (trading_pair_associated_to_exchange_symbol
            [(("Xbt", "Aud"), "Xbt-Aud"), (("Xbt", "Usd"), "Xbt-Usd")]
            ("Xbt", "Aud")).bind
          (fun tp => exchange_symbol_associated_to_pair
            [(("Xbt", "Aud"), "Xbt-Aud"), (("Xbt", "Usd"), "Xbt-Usd")] tp) =
        some ("Xbt", "Aud") :=
  ⟨by rfl,
   (symbol_map_bijective ["Xbt"] ["Aud", "Usd"]
       [(("Xbt", "Aud"), "Xbt-Aud"), (("Xbt", "Usd"), "Xbt-Usd")] (by rfl)).1
     ("Xbt", "Aud") (by decide)⟩

/-- C9 counterexample: `snapshot_message_from_exchange` pins `update_id` to
0 for every snapshot, so the second (and any later) snapshot message of a
session also carries `updateId` 0, contradicting the reservation of 0 for
the very first snapshot. -/
theorem second_snapshot_update_id_zero_cex :
    ((listen_snapshot_messages
          [(⟨"2021-05-01T12:00:00.1234567Z", [], []⟩, 1),
           (⟨"2021-05-01T13:00:00.1234567Z", [], []⟩, 2)] "Xbt-Aud").get? 1).map
        (fun m => m.update_id) = some 0 := by decide

/-- C9 (amended): every snapshot message of the session carries
`update_id = 0`, not only the first one. -/
theorem snapshot_update_id_always_zero (msg : PySnapshotPayload) (ts : Rat)
    (tp : String) (m : PySnapshotMessage)
    (h : snapshot_message_from_exchange msg ts tp = some m) : m.update_id = 0 := by
  rcases hp : parse_created_timestamp_utc msg.CreatedTimestampUtc with _ | t
  · simp only [snapshot_message_from_exchange, hp] at h
    exact Option.noConfusion h
  · simp only [snapshot_message_from_exchange, hp, Option.some.injEq] at h
    rw [← h]

/-- C9 witness: a parseable snapshot payload produces a message and its
`update_id` is 0. -/
theorem snapshot_update_id_always_zero_witness :
    snapshot_message_from_exchange ⟨"2021-05-01T12:00:00.1234567Z", [], []⟩ 1 "Xbt-Aud" =
        some { trading_pair := "Xbt-Aud", update_id := 0, bids := [], asks := [],
               timestamp := 1 } ∧
      ({ trading_pair := "Xbt-Aud", update_id := 0, bids := [], asks := [],
         timestamp := 1 } : PySnapshotMessage).update_id = 0 :=
  ⟨by decide,
   snapshot_update_id_always_zero ⟨"2021-05-01T12:00:00.1234567Z", [], []⟩ 1 "Xbt-Aud"
     _ (by decide)⟩

/-- C10: the message built by `snapshot_message_from_exchange` carries the
caller-supplied `timestamp` argument, and two parseable payloads that agree
on `BuyOrders` / `SellOrders` but differ in `CreatedTimestampUtc` produce
identical messages: the wire timestamp is parsed (it can only make the call
raise) but influences no field of the result. -/
theorem snapshot_wire_timestamp_ignored (p1 p2 : PySnapshotPayload) (ts : Rat)
    (tp : String) (m1 m2 : PySnapshotMessage)
    (hb : p1.BuyOrders = p2.BuyOrders) (hsell : p1.SellOrders = p2.SellOrders)
    (h1 : snapshot_message_from_exchange p1 ts tp = some m1)
    (h2 : snapshot_message_from_exchange p2 ts tp = some m2) :
    m1 = m2 ∧ m1.timestamp = ts := by
  rcases hp1 : parse_created_timestamp_utc p1.CreatedTimestampUtc with _ | t1
  · simp only [snapshot_message_from_exchange, hp1] at h1
    exact Option.noConfusion h1
  · rcases hp2 : parse_created_timestamp_utc p2.CreatedTimestampUtc with _ | t2
    · simp only [snapshot_message_from_exchange, hp2] at h2
      exact Option.noConfusion h2
    · simp only [snapshot_message_from_exchange, hp1, Option.some.injEq] at h1
      simp only [snapshot_message_from_exchange, hp2, Option.some.injEq] at h2
      constructor
      · rw [← h1, ← h2, hb, hsell]
      · rw [← h1]

/-- C10 witness: two payloads with different (parseable) wire timestamps and
the same orders give the same message, stamped with the caller timestamp. -/
theorem snapshot_wire_timestamp_ignored_witness :
    (snapshot_message_from_exchange ⟨"2021-05-01T12:00:00.1234567Z", [(1, 2)], []⟩ 7
        "Xbt-Aud" = some ⟨"Xbt-Aud", 0, [(1, 2)], [], 7⟩) ∧
      (snapshot_message_from_exchange ⟨"1999-01-02T03:04:05.42Z", [(1, 2)], []⟩ 7
        "Xbt-Aud" = some ⟨"Xbt-Aud", 0, [(1, 2)], [], 7⟩) ∧
      ((⟨"Xbt-Aud", 0, [(1, 2)], [], 7⟩ : PySnapshotMessage) =
          ⟨"Xbt-Aud", 0, [(1, 2)], [], 7⟩ ∧
        (⟨"Xbt-Aud", 0, [(1, 2)], [], 7⟩ : PySnapshotMessage).timestamp = 7) :=
  ⟨by decide, by decide,
   snapshot_wire_timestamp_ignored
     ⟨"2021-05-01T12:00:00.1234567Z", [(1, 2)], []⟩
     ⟨"1999-01-02T03:04:05.42Z", [(1, 2)], []⟩ 7 "Xbt-Aud"
     ⟨"Xbt-Aud", 0, [(1, 2)], [], 7⟩ ⟨"Xbt-Aud", 0, [(1, 2)], [], 7⟩
     (by rfl) (by rfl) (by decide) (by decide)⟩
